import Mathlib

/-!
Shallow embedding of the `trident` small-buffer-optimization storage
primitive (src/limits.rs, src/into.rs, src/erased.rs, src/trident.rs).

Modelling conventions:
* The machine word size in bytes is a parameter `W` (8 on 64-bit targets,
  4 on 32-bit targets).
* A Rust payload type `T` is modelled by `RType α`: its `size_of` in bytes,
  its in-memory byte representation (`enc`), and the inverse read (`dec`).
* Machine memory is `Mem`: an association list mapping heap addresses to the
  byte blocks allocated there, a fresh-address counter, a counter `drops` of
  how many times the payload type's destructor (`Drop::drop` /
  `drop_in_place`) has been invoked, and a counter `frees` of how many heap
  deallocations have happened.  `drops` is exactly the counter of the spec's
  "instrumented cleanup routine".
* The `Erased` word buffer `[usize; 3]` is modelled at byte granularity as a
  `List Nat` of length `3 * W`; `Erased.word` recovers the individual words
  (little-endian byte order, as on both supported Rust targets).
* Raw pointers obtained from `as_ptr` / `as_mut_ptr` are modelled by `Loc`:
  either a pointer into the container's own buffer or a heap address.
-/

/-- Little-endian byte decomposition of a natural number into `w` bytes:
models how a `usize` value (for example `Box::into_raw(..) as usize`) is
laid out in memory. -/
def natToLE : Nat → Nat → List Nat
  | 0, _ => []
  | w + 1, n => n % 256 :: natToLE w (n / 256)

/-- Reassemble a little-endian byte list into the natural number it encodes:
models reading a `usize` back out of memory. -/
def leToNat : List Nat → Nat
  | [] => 0
  | b :: bs => b + 256 * leToNat bs

theorem natToLE_length (w n : Nat) : (natToLE w n).length = w := by
  induction w generalizing n with
  | zero => rfl
  | succ w ih => simp [natToLE, ih]

theorem leToNat_natToLE (w n : Nat) : leToNat (natToLE w n) = n % 256 ^ w := by
  induction w generalizing n with
  | zero => simp [natToLE, leToNat, Nat.mod_one]
  | succ w ih =>
      rw [natToLE, leToNat, ih, pow_succ', Nat.mod_mul]

theorem leToNat_replicate_zero (n : Nat) : leToNat (List.replicate n 0) = 0 := by
  induction n with
  | zero => rfl
  | succ n ih => simp [List.replicate, leToNat, ih]

namespace Rust

/-- Model of a Rust payload type `T`: its `size_of` in bytes, its in-memory
byte representation `enc`, and the read `dec` that reinterprets bytes of the
representation back as a value.  `dec_enc` states that reading back the bytes
of a value yields that value (Rust's bitwise move/read semantics). -/
structure RType (α : Type) where
  size : Nat
  enc : α → List Nat
  dec : List Nat → α
  enc_length : ∀ a, (enc a).length = size
  dec_enc : ∀ a, dec (enc a) = a

/-- Machine memory and instrumentation state:
* `heap`: association list from heap address to the byte block allocated there;
* `nextAddr`: the address the allocator hands out next (freshness counter);
* `drops`: how many times the payload destructor has been invoked — this is
  the counter of the spec's instrumented cleanup routine;
* `frees`: how many heap deallocations have occurred. -/
structure Mem where
  heap : List (Nat × List Nat)
  nextAddr : Nat
  drops : Nat
  frees : Nat
deriving DecidableEq

/-- Empty starting memory. -/
def Mem.init : Mem where
  heap := []
  nextAddr := 1
  drops := 0
  frees := 0

/-- Allocate a fresh heap block holding `bytes` (models `Box::new`), returning
its address. -/
def Mem.alloc (m : Mem) (bytes : List Nat) : Nat × Mem :=
  (m.nextAddr,
   { m with heap := (m.nextAddr, bytes) :: m.heap, nextAddr := m.nextAddr + 1 })

/-- Read the byte block stored at heap address `addr`. -/
def Mem.readAt (m : Mem) (addr : Nat) : List Nat :=
  (m.heap.lookup addr).getD []

/-- Overwrite the byte block at heap address `addr` with `bytes`. -/
def Mem.writeAt (m : Mem) (addr : Nat) (bytes : List Nat) : Mem :=
  { m with heap := (addr, bytes) :: m.heap.eraseP (fun p => p.1 == addr) }

/-- Release the heap block at `addr` without touching its contents first
(models `alloc::dealloc`): the block disappears and `frees` is incremented. -/
def Mem.dealloc (m : Mem) (addr : Nat) : Mem :=
  { m with heap := m.heap.eraseP (fun p => p.1 == addr), frees := m.frees + 1 }

/-- Invoke the payload destructor once (models `drop_in_place::<T>` on an
instrumented `T` whose `Drop::drop` increments a counter). -/
def Mem.dropInPlace (m : Mem) : Mem :=
  { m with drops := m.drops + 1 }

/-- NWORDS from src/limits.rs: the buffer holds 3 machine words. -/
def NWORDS : Nat := 3

/-- SIZE_LIMIT from src/limits.rs: `mem::size_of::<[usize; NWORDS]>()`, with
the word size `W` in bytes a parameter (8 on 64-bit targets, 4 on 32-bit). -/
def SIZE_LIMIT (W : Nat) : Nat := NWORDS * W

/-- should_inline from src/limits.rs: `mem::size_of::<T>() <= SIZE_LIMIT`,
taking `size_of::<T>()` as the argument `size`. -/
def should_inline (W : Nat) (size : Nat) : Bool :=
  size ≤ SIZE_LIMIT W

/-- Erased from src/erased.rs: the `[usize; NWORDS]` buffer, modelled at byte
granularity as a list of `NWORDS * W` bytes. -/
structure Erased where
  buf : List Nat
deriving DecidableEq

/-- View word number `i` of the buffer (little-endian byte order), as Rust
does when it reads `self.words[i]`. -/
def Erased.word (W : Nat) (e : Erased) (i : Nat) : Nat :=
  leToNat ((e.buf.drop (i * W)).take W)

/-- Raw pointer as produced by `as_ptr` / `as_mut_ptr`: either a pointer into
the erased buffer itself (inline mode) or a heap address (heap mode). -/
inductive Loc where
  | inBuffer : Loc
  | heapAddr (addr : Nat) : Loc
deriving DecidableEq

/-- Erased::new from src/erased.rs.  Inline-eligible `T`: zero the words, copy
the `size_of::<T>()` representation bytes of `t` into the buffer, and
`mem::forget(t)` (no destructor call).  Otherwise: `Box::new(t)` and store
`Box::into_raw(..) as usize` in the first word, the other two words zero. -/
def Erased.new {α : Type} (W : Nat) (T : RType α) (t : α) (m : Mem) :
    Erased × Mem :=
  if should_inline W T.size then
    (⟨T.enc t ++ List.replicate (SIZE_LIMIT W - T.size) 0⟩, m)
  else
    let am := m.alloc (T.enc t)
    (⟨natToLE W am.1 ++ List.replicate (2 * W) 0⟩, am.2)

/-- Erased::as_ptr from src/erased.rs: a pointer to the buffer itself when
inline-eligible, otherwise `self.words[0] as *const T`. -/
def Erased.as_ptr {α : Type} (W : Nat) (T : RType α) (e : Erased) : Loc :=
  if should_inline W T.size then .inBuffer else .heapAddr (e.word W 0)

/-- Erased::as_mut_ptr from src/erased.rs: same address computation as
`as_ptr`, but for mutation. -/
def Erased.as_mut_ptr {α : Type} (W : Nat) (T : RType α) (e : Erased) : Loc :=
  if should_inline W T.size then .inBuffer else .heapAddr (e.word W 0)

/-- Dereference a pointer for reading: take `size_of::<T>()` bytes at the
location and reinterpret them as a `T` (models `ptr::read` / `&*ptr`). -/
def readLoc {α : Type} (T : RType α) (e : Erased) (m : Mem) : Loc → α
  | .inBuffer => T.dec (e.buf.take T.size)
  | .heapAddr a => T.dec ((m.readAt a).take T.size)

/-- Erased::as_ref from src/erased.rs: `&*self.as_ptr()`. -/
def Erased.as_ref {α : Type} (W : Nat) (T : RType α) (e : Erased) (m : Mem) :
    α :=
  readLoc T e m (Erased.as_ptr W T e)

/-- Erased::get from src/erased.rs (`T: Copy`): `*self.as_ref()`, a bitwise
copy of the payload out of the storage. -/
def Erased.get {α : Type} (W : Nat) (T : RType α) (e : Erased) (m : Mem) : α :=
  Erased.as_ref W T e m

/-- Drop glue of `Erased`: the struct declares no `Drop` implementation and
its only field is a plain `[usize; NWORDS]`, so dropping an `Erased` performs
no action at all — modelled as the identity on memory. -/
def Erased.dropGlue (_e : Erased) (m : Mem) : Mem := m

/-- into_inner from src/into.rs, generic over the container.  It reads the
value out with `ptr::read(ptr)`; then, only when `T` is NOT inline-eligible,
it deallocates the heap block and `mem::forget`s the container.  When `T` IS
inline-eligible the container is not forgotten, so its drop glue
(`containerDrop`) runs when the function returns. -/
def into.into_inner {α : Type} (W : Nat) (T : RType α) (ptr : Loc) (e : Erased)
    (containerDrop : Mem → Mem) (m : Mem) : α × Mem :=
  let t := readLoc T e m ptr
  if should_inline W T.size then
    (t, containerDrop m)
  else
    match ptr with
    | .inBuffer => (t, m)
    | .heapAddr a => (t, m.dealloc a)

/-- Trident from src/trident.rs: an `Erased` plus a `PhantomData<T>` marker,
modelled by making the payload type a (phantom) type parameter. -/
structure Trident (α : Type) where
  erased : Erased
deriving DecidableEq

/-- Trident::new from src/trident.rs: delegates to `Erased::new`. -/
def Trident.new {α : Type} (W : Nat) (T : RType α) (t : α) (m : Mem) :
    Trident α × Mem :=
  let em := Erased.new W T t m
  (⟨em.1⟩, em.2)

/-- Trident::from_erased from src/trident.rs: wraps the erased storage,
asserting (uncheckedly) that it holds a `T`. -/
def Trident.from_erased {α : Type} (e : Erased) : Trident α :=
  ⟨e⟩

/-- Trident::as_ptr from src/trident.rs: delegates to `Erased::as_ptr`. -/
def Trident.as_ptr {α : Type} (W : Nat) (T : RType α) (tr : Trident α) : Loc :=
  Erased.as_ptr W T tr.erased

/-- Trident::as_mut_ptr from src/trident.rs: delegates to
`Erased::as_mut_ptr`. -/
def Trident.as_mut_ptr {α : Type} (W : Nat) (T : RType α) (tr : Trident α) :
    Loc :=
  Erased.as_mut_ptr W T tr.erased

/-- Trident::as_ref from src/trident.rs: delegates to `Erased::as_ref`. -/
def Trident.as_ref {α : Type} (W : Nat) (T : RType α) (tr : Trident α)
    (m : Mem) : α :=
  Erased.as_ref W T tr.erased m

/-- Drop implementation for Trident from src/trident.rs: inline-eligible `T`
gets `ptr::drop_in_place` on the buffer (destructor invoked in place); larger
`T` gets `Box::from_raw(ptr)` whose immediate drop runs `T`'s destructor on
the heap value and then frees the block. -/
def Trident.dropImpl {α : Type} (W : Nat) (T : RType α) (tr : Trident α)
    (m : Mem) : Mem :=
  if should_inline W T.size then
    m.dropInPlace
  else
    match Trident.as_mut_ptr W T tr with
    | .inBuffer => m
    | .heapAddr a => (m.dropInPlace).dealloc a

/-- Trident::into_inner from src/trident.rs:
`into::into_inner(self.as_mut_ptr(), self)` — the container passed along is
the Trident itself, so the drop glue that `into::into_inner` may run is
`Trident.dropImpl`. -/
def Trident.into_inner {α : Type} (W : Nat) (T : RType α) (tr : Trident α)
    (m : Mem) : α × Mem :=
  into.into_inner W T (Trident.as_mut_ptr W T tr) tr.erased
    (Trident.dropImpl W T tr) m

/-- Trident::get from src/trident.rs (`T: Copy`): `*self.as_ref()`.  Since the
receiver is a shared borrow (`&self`), the method returns the container and
the memory unchanged alongside the copied value; the triple makes that
explicit. -/
def Trident.get {α : Type} (W : Nat) (T : RType α) (tr : Trident α) (m : Mem) :
    α × Trident α × Mem :=
  (Trident.as_ref W T tr m, tr, m)

/-- Trident::into_erased from src/trident.rs:
`Erased::new(self.into_inner())` — a full re-move through an owned value. -/
def Trident.into_erased {α : Type} (W : Nat) (T : RType α) (tr : Trident α)
    (m : Mem) : Erased × Mem :=
  let tm := Trident.into_inner W T tr m
  Erased.new W T tm.1 tm.2

/-- Erased::into_inner from src/erased.rs:
`into::into_inner(self.as_mut_ptr(), self)` — here the container is the
`Erased` itself, whose drop glue is a no-op (`Erased.dropGlue`). -/
def Erased.into_inner {α : Type} (W : Nat) (T : RType α) (e : Erased)
    (m : Mem) : α × Mem :=
  into.into_inner W T (Erased.as_mut_ptr W T e) e (Erased.dropGlue e) m

/-- Erased::into_trident from src/erased.rs: `Trident::from_erased(self)`. -/
def Erased.into_trident {α : Type} (e : Erased) : Trident α :=
  Trident.from_erased e

/-- Write a value through the mutable reference returned by
`as_mut_ref` (client-side `*container.as_mut_ref() = w`): Rust assignment
through `&mut T` first drops the old value in place, then moves the new
value's bytes into the location. -/
def writeLoc {α : Type} (T : RType α) (w : α) (e : Erased) (m : Mem) :
    Loc → Erased × Mem
  | .inBuffer => (⟨T.enc w ++ e.buf.drop T.size⟩, m.dropInPlace)
  | .heapAddr a => (e, (m.dropInPlace).writeAt a (T.enc w))

/-- Writing `w` through `Trident::as_mut_ref`: resolves the location with
`as_mut_ptr` and performs the assignment there. -/
def Trident.writeMut {α : Type} (W : Nat) (T : RType α) (tr : Trident α)
    (w : α) (m : Mem) : Trident α × Mem :=
  let em := writeLoc T w tr.erased m (Trident.as_mut_ptr W T tr)
  (⟨em.1⟩, em.2)

/-- Concrete payload type for evaluating the model: a `k`-byte value, stored
little-endian, standing in for a Rust type with `size_of = k` (for example
`i32` for `k = 4`, `[i32; 20]` for `k = 80`). -/
def byteType (k : Nat) : RType (Fin (256 ^ k)) where
  size := k
  enc a := natToLE k a.val
  dec bs := ⟨leToNat bs % 256 ^ k, Nat.mod_lt _ (Nat.pow_pos (by norm_num))⟩
  enc_length a := natToLE_length k a.val
  dec_enc a := by
    apply Fin.ext
    show leToNat (natToLE k a.val) % 256 ^ k = a.val
    rw [leToNat_natToLE, Nat.mod_eq_of_lt a.isLt, Nat.mod_eq_of_lt a.isLt]

/-- Small concrete payload value: a 4-byte payload (inline-eligible on both
word sizes), holding 7. -/
def smallVal : Fin (256 ^ 4) := ⟨7, by norm_num⟩

/-- Large concrete payload value: an 80-byte payload (heap mode on both word
sizes), holding 42. -/
def largeVal : Fin (256 ^ 80) := ⟨42, by norm_num⟩

theorem take_enc {α : Type} (T : RType α) (t : α) (l : List Nat) :
    (T.enc t ++ l).take T.size = T.enc t :=
  List.take_left' (T.enc_length t)

theorem leToNat_eq_zero (l : List Nat) (h : ∀ b ∈ l, b = 0) :
    leToNat l = 0 := by
  induction l with
  | nil => rfl
  | cons b bs ih =>
      rw [leToNat, h b (by simp), ih (fun x hx => h x (by simp [hx]))]

/-- Byte buffer produced by the heap branch of `Erased::new`: address in the
first word, remaining two words zero. -/
def heapBuf (W a : Nat) : List Nat :=
  natToLE W a ++ List.replicate (2 * W) 0

theorem word_heapBuf_zero (W a : Nat) (h : a < 256 ^ W) :
    Erased.word W ⟨heapBuf W a⟩ 0 = a := by
  show leToNat (((heapBuf W a).drop (0 * W)).take W) = a
  rw [Nat.zero_mul, List.drop_zero, heapBuf, List.take_left' (natToLE_length W a),
    leToNat_natToLE, Nat.mod_eq_of_lt h]

theorem word_heapBuf_rest (W a i : Nat) (hi : 1 ≤ i) :
    Erased.word W ⟨heapBuf W a⟩ i = 0 := by
  show leToNat (((heapBuf W a).drop (i * W)).take W) = 0
  apply leToNat_eq_zero
  intro b hb
  have hb2 : b ∈ (heapBuf W a).drop (i * W) := List.take_subset _ _ hb
  have hlen : (natToLE W a).length = W := natToLE_length W a
  have hWi : W ≤ i * W := Nat.le_mul_of_pos_left W hi
  have hdrop : (heapBuf W a).drop (i * W) =
      (List.replicate (2 * W) (0 : Nat)).drop (i * W - W) := by
    obtain ⟨j, hj⟩ : ∃ j, i * W = (natToLE W a).length + j :=
      ⟨i * W - W, by rw [hlen]; omega⟩
    rw [heapBuf, hj, List.drop_append]
    congr 1
    rw [hlen] at hj
    omega
  rw [hdrop] at hb2
  exact List.eq_of_mem_replicate (List.drop_subset _ _ hb2)

theorem take_size_enc {α : Type} (T : RType α) (t : α) :
    (T.enc t).take T.size = T.enc t :=
  List.take_of_length_le (Nat.le_of_eq (T.enc_length t))

theorem Erased.new_inline {α : Type} (W : Nat) (T : RType α) (t : α) (m : Mem)
    (hi : should_inline W T.size = true) :
    Erased.new W T t m =
      (⟨T.enc t ++ List.replicate (SIZE_LIMIT W - T.size) 0⟩, m) := by
  simp [Erased.new, hi]

theorem Erased.new_heap {α : Type} (W : Nat) (T : RType α) (t : α) (m : Mem)
    (hi : should_inline W T.size = false) :
    Erased.new W T t m =
      (⟨heapBuf W m.nextAddr⟩,
       { m with heap := (m.nextAddr, T.enc t) :: m.heap,
                nextAddr := m.nextAddr + 1 }) := by
  simp [Erased.new, hi, Mem.alloc, heapBuf]

theorem Erased.as_ref_new {α : Type} (W : Nat) (T : RType α) (t : α) (m : Mem)
    (h : m.nextAddr < 256 ^ W) :
    Erased.as_ref W T (Erased.new W T t m).1 (Erased.new W T t m).2 = t := by
  rcases Bool.eq_false_or_eq_true (should_inline W T.size) with hi | hi
  · rw [Erased.new_inline W T t m hi]
    simp [Erased.as_ref, Erased.as_ptr, hi, readLoc, take_enc, T.dec_enc]
  · rw [Erased.new_heap W T t m hi]
    simp only [Erased.as_ref, Erased.as_ptr, hi, Bool.false_eq_true, if_false,
      readLoc]
    rw [word_heapBuf_zero W m.nextAddr h]
    simp only [Mem.readAt, List.lookup_cons_self, Option.getD_some]
    rw [take_size_enc, T.dec_enc]

theorem into_inner_new_eq {α : Type} (W : Nat) (T : RType α) (t : α) (m : Mem)
    (h : m.nextAddr < 256 ^ W) :
    Trident.into_inner W T (Trident.new W T t m).1 (Trident.new W T t m).2 =
      (t, if should_inline W T.size = true
            then { m with drops := m.drops + 1 }
            else { m with nextAddr := m.nextAddr + 1, frees := m.frees + 1 }) := by
  rcases Bool.eq_false_or_eq_true (should_inline W T.size) with hi | hi
  · rw [Trident.into_inner, Trident.new, Erased.new_inline W T t m hi]
    simp [Trident.as_mut_ptr, Erased.as_mut_ptr, hi, into.into_inner, readLoc,
      Trident.dropImpl, Mem.dropInPlace, take_enc, T.dec_enc]
  · rw [Trident.into_inner, Trident.new, Erased.new_heap W T t m hi]
    simp only [Trident.as_mut_ptr, Erased.as_mut_ptr, hi, Bool.false_eq_true,
      if_false, into.into_inner, readLoc]
    rw [word_heapBuf_zero W m.nextAddr h]
    simp only [Mem.readAt, Mem.dealloc, List.lookup_cons_self, Option.getD_some,
      hi, Bool.false_eq_true, if_false]
    rw [take_size_enc, T.dec_enc, List.eraseP_cons_of_pos (by simp)]

theorem getD_append_replicate_zero (l : List Nat) (n i : Nat)
    (hi : l.length ≤ i) : (l ++ List.replicate n 0).getD i 0 = 0 := by
  rw [List.getD_eq_getElem?_getD, List.getElem?_append_right hi,
    List.getElem?_replicate]
  by_cases hlt : i - l.length < n
  · simp [hlt]
  · simp [hlt]

/-- C1: the claim says `Trident::into_inner` suppresses the container's own
teardown so that `T`'s cleanup routine runs zero times during extraction, in
both storage modes.  The code violates this in the inline mode:
`into::into_inner` calls `mem::forget(container)` only in the heap branch, so
for an inline-eligible payload the `Trident` argument is dropped when the
function returns, `Drop for Trident` runs `ptr::drop_in_place` on the buffer,
and the destructor executes once during the extraction.  This theorem
evaluates the model at the failing input: a 4-byte payload on a 64-bit
target, extracted from a freshly constructed container — the destructor
counter ends at 1, not 0. -/
theorem into_inner_inline_runs_destructor :
    (Trident.into_inner 8 (byteType 4)
        (Trident.new 8 (byteType 4) smallVal Mem.init).1
        (Trident.new 8 (byteType 4) smallVal Mem.init).2).2.drops = 1 := by
  decide

/-- C2: constructing a `Trident` from a value and then dropping it runs the
instrumented cleanup routine exactly once (`drops` grows by exactly 1), in
both storage modes; in heap mode the heap block is freed exactly once
(`frees` grows by 1 and the block is gone from the heap), while inline mode
touches neither the heap nor the free counter. -/
theorem exactly_one_cleanup {α : Type} (W : Nat) (T : RType α) (t : α)
    (m : Mem) (h : m.nextAddr < 256 ^ W) :
    (Trident.dropImpl W T (Trident.new W T t m).1 (Trident.new W T t m).2).drops
        = m.drops + 1 ∧
    (Trident.dropImpl W T (Trident.new W T t m).1 (Trident.new W T t m).2).heap
        = m.heap ∧
    (Trident.dropImpl W T (Trident.new W T t m).1 (Trident.new W T t m).2).frees
        = (if should_inline W T.size = true then m.frees else m.frees + 1) := by
  rcases Bool.eq_false_or_eq_true (should_inline W T.size) with hi | hi
  · rw [Trident.new, Erased.new_inline W T t m hi]
    simp [Trident.dropImpl, hi, Mem.dropInPlace]
  · rw [Trident.new, Erased.new_heap W T t m hi]
    simp only [Trident.dropImpl, hi, Bool.false_eq_true, if_false,
      Trident.as_mut_ptr, Erased.as_mut_ptr]
    rw [word_heapBuf_zero W m.nextAddr h]
    simp [Mem.dropInPlace, Mem.dealloc, List.eraseP_cons_of_pos]

/-- witness for C2 at a concrete heap-mode input: an 80-byte payload on a
64-bit target, starting from the empty memory. -/
theorem exactly_one_cleanup_witness :
    (Trident.dropImpl 8 (byteType 80)
        (Trident.new 8 (byteType 80) largeVal Mem.init).1
        (Trident.new 8 (byteType 80) largeVal Mem.init).2).drops
      = Mem.init.drops + 1 :=
  (exactly_one_cleanup 8 (byteType 80) largeVal Mem.init (by norm_num [Mem.init])).1

/-- C3: `Trident::new(v).into_inner()` returns a value equal to `v`, in both
the inline and the heap storage mode (the payload type, hence the mode, is
arbitrary here). -/
theorem new_into_inner_round_trip {α : Type} (W : Nat) (T : RType α) (t : α)
    (m : Mem) (h : m.nextAddr < 256 ^ W) :
    (Trident.into_inner W T (Trident.new W T t m).1
        (Trident.new W T t m).2).1 = t := by
  rw [into_inner_new_eq W T t m h]

/-- witness for C3 at a concrete heap-mode input. -/
theorem new_into_inner_round_trip_witness :
    (Trident.into_inner 8 (byteType 80)
        (Trident.new 8 (byteType 80) largeVal Mem.init).1
        (Trident.new 8 (byteType 80) largeVal Mem.init).2).1 = largeVal :=
  new_into_inner_round_trip 8 (byteType 80) largeVal Mem.init (by norm_num [Mem.init])

/-- C4: `should_inline` returns true exactly when the payload size is at most
`SIZE_LIMIT`, which is the byte size of the 3-word buffer — 24 bytes at the
64-bit word size, 12 at the 32-bit one.  In the model it is a total pure
function into `Bool` (no side effects, cannot fail), and a container built by
`Erased::new` leaves the heap untouched (uses inline storage) exactly when
the predicate holds. -/
theorem should_inline_spec {α : Type} (W s : Nat) (T : RType α) (t : α)
    (m : Mem) :
    (should_inline W s = true ↔ s ≤ SIZE_LIMIT W) ∧
    SIZE_LIMIT W = NWORDS * W ∧ SIZE_LIMIT 8 = 24 ∧ SIZE_LIMIT 4 = 12 ∧
    ((Erased.new W T t m).2.heap = m.heap ↔ should_inline W T.size = true) := by
  refine ⟨by simp [should_inline], rfl, rfl, rfl, ?_⟩
  rcases Bool.eq_false_or_eq_true (should_inline W T.size) with hi | hi
  · rw [Erased.new_inline W T t m hi]
    simp [hi]
  · rw [Erased.new_heap W T t m hi]
    simp [hi, List.cons_ne_self]

/-- C5: building a `Trident` from `v`, converting it to an `Erased` with
`into_erased`, and reconstructing a typed container with `into_trident`
yields a container whose contained value (read through `as_ref`) equals `v`,
in both storage modes. -/
theorem erase_unerase_round_trip {α : Type} (W : Nat) (T : RType α) (t : α)
    (m : Mem) (h : m.nextAddr + 1 < 256 ^ W) :
    Trident.as_ref W T
        (Erased.into_trident
          (Trident.into_erased W T (Trident.new W T t m).1
            (Trident.new W T t m).2).1)
        (Trident.into_erased W T (Trident.new W T t m).1
          (Trident.new W T t m).2).2 = t := by
  have h0 : m.nextAddr < 256 ^ W := Nat.lt_of_succ_lt h
  simp only [Trident.into_erased, into_inner_new_eq W T t m h0]
  show Erased.as_ref W T (Erased.new W T t _).1 (Erased.new W T t _).2 = t
  apply Erased.as_ref_new
  rcases Bool.eq_false_or_eq_true (should_inline W T.size) with hi | hi <;>
    simp [hi] <;> omega

/-- witness for C5 at a concrete heap-mode input. -/
theorem erase_unerase_round_trip_witness :
    Trident.as_ref 8 (byteType 80)
        (Erased.into_trident
          (Trident.into_erased 8 (byteType 80)
            (Trident.new 8 (byteType 80) largeVal Mem.init).1
            (Trident.new 8 (byteType 80) largeVal Mem.init).2).1)
        (Trident.into_erased 8 (byteType 80)
          (Trident.new 8 (byteType 80) largeVal Mem.init).1
          (Trident.new 8 (byteType 80) largeVal Mem.init).2).2 = largeVal :=
  erase_unerase_round_trip 8 (byteType 80) largeVal Mem.init
    (by norm_num [Mem.init])

/-- C6: after `Erased::new(v)` no cleanup routine has run (`drops` is
unchanged) and nothing has been freed; in the inline case the value's bytes
sit at the start of the zero-initialized word buffer and the heap is
untouched, while in the heap case the first word holds the address of a
freshly allocated block that contains the value's bytes. -/
theorem erased_new_postcondition {α : Type} (W : Nat) (T : RType α) (t : α)
    (m : Mem) (h : m.nextAddr < 256 ^ W) :
    (Erased.new W T t m).2.drops = m.drops ∧
    (Erased.new W T t m).2.frees = m.frees ∧
    (should_inline W T.size = true →
       (Erased.new W T t m).1.buf
           = T.enc t ++ List.replicate (SIZE_LIMIT W - T.size) 0 ∧
       (Erased.new W T t m).2 = m) ∧
    (should_inline W T.size = false →
       Erased.word W (Erased.new W T t m).1 0 = m.nextAddr ∧
       (Erased.new W T t m).2.readAt m.nextAddr = T.enc t ∧
       (Erased.new W T t m).2.heap = (m.nextAddr, T.enc t) :: m.heap) := by
  rcases Bool.eq_false_or_eq_true (should_inline W T.size) with hi | hi
  · rw [Erased.new_inline W T t m hi]
    simp [hi]
  · rw [Erased.new_heap W T t m hi]
    refine ⟨rfl, rfl, by simp [hi], fun _ => ⟨word_heapBuf_zero W m.nextAddr h, ?_, rfl⟩⟩
    simp [Mem.readAt]

/-- witness for C6 at a concrete heap-mode input. -/
theorem erased_new_postcondition_witness :
    (Erased.new 8 (byteType 80) largeVal Mem.init).2.drops
      = Mem.init.drops :=
  (erased_new_postcondition 8 (byteType 80) largeVal Mem.init
    (by norm_num [Mem.init])).1

/-- C7: writing `w` through the mutable reference obtained from `as_mut_ref`
on a container built from `v` is observed by a subsequent `as_ref`, and a
subsequent `get` (for copyable payloads) returns `w` as well — in both
storage modes. -/
theorem mutation_visibility {α : Type} (W : Nat) (T : RType α) (t w : α)
    (m : Mem) (h : m.nextAddr < 256 ^ W) :
    Trident.as_ref W T
        (Trident.writeMut W T (Trident.new W T t m).1 w
          (Trident.new W T t m).2).1
        (Trident.writeMut W T (Trident.new W T t m).1 w
          (Trident.new W T t m).2).2 = w ∧
    (Trident.get W T
        (Trident.writeMut W T (Trident.new W T t m).1 w
          (Trident.new W T t m).2).1
        (Trident.writeMut W T (Trident.new W T t m).1 w
          (Trident.new W T t m).2).2).1 = w := by
  have main : Trident.as_ref W T
      (Trident.writeMut W T (Trident.new W T t m).1 w
        (Trident.new W T t m).2).1
      (Trident.writeMut W T (Trident.new W T t m).1 w
        (Trident.new W T t m).2).2 = w := by
    rcases Bool.eq_false_or_eq_true (should_inline W T.size) with hi | hi
    · rw [Trident.new, Erased.new_inline W T t m hi]
      simp only [Trident.writeMut, Trident.as_mut_ptr, Erased.as_mut_ptr, hi,
        if_true, writeLoc, Trident.as_ref, Erased.as_ref, Erased.as_ptr,
        readLoc]
      rw [take_enc, T.dec_enc]
    · rw [Trident.new, Erased.new_heap W T t m hi]
      simp only [Trident.writeMut, Trident.as_mut_ptr, Erased.as_mut_ptr, hi,
        Bool.false_eq_true, if_false, writeLoc]
      rw [word_heapBuf_zero W m.nextAddr h]
      simp only [Trident.as_ref, Erased.as_ref, Erased.as_ptr, hi,
        Bool.false_eq_true, if_false, readLoc]
      rw [word_heapBuf_zero W m.nextAddr h]
      simp only [Mem.writeAt, Mem.dropInPlace, Mem.readAt,
        List.lookup_cons_self, Option.getD_some]
      rw [take_size_enc, T.dec_enc]
  exact ⟨main, main⟩

/-- witness for C7 at a concrete heap-mode input: construct from 42, write 5,
read 5 back. -/
theorem mutation_visibility_witness :
    Trident.as_ref 8 (byteType 80)
        (Trident.writeMut 8 (byteType 80)
          (Trident.new 8 (byteType 80) largeVal Mem.init).1 ⟨5, by norm_num⟩
          (Trident.new 8 (byteType 80) largeVal Mem.init).2).1
        (Trident.writeMut 8 (byteType 80)
          (Trident.new 8 (byteType 80) largeVal Mem.init).1 ⟨5, by norm_num⟩
          (Trident.new 8 (byteType 80) largeVal Mem.init).2).2
      = ⟨5, by norm_num⟩ :=
  (mutation_visibility 8 (byteType 80) largeVal ⟨5, by norm_num⟩ Mem.init
    (by norm_num [Mem.init])).1

/-- C8: an `Erased` that is neither consumed nor converted has no implicit
teardown: its drop glue (there is no `Drop` implementation and the only field
is a plain word array) leaves memory exactly as it was — the destructor
counter, the free counter, and the heap (hence any live allocation) are all
unchanged. -/
theorem erased_no_implicit_teardown (e : Erased) (m : Mem) :
    Erased.dropGlue e m = m ∧
    (Erased.dropGlue e m).drops = m.drops ∧
    (Erased.dropGlue e m).frees = m.frees ∧
    (Erased.dropGlue e m).heap = m.heap :=
  ⟨rfl, rfl, rfl, rfl⟩

/-- C9: `get` on a container built from `t` returns a copy equal to `t`,
while the container (in particular its word buffer) and the memory are
exactly the ones before the call — `get` borrows the receiver with `&self`,
made explicit here by returning the receiver and memory alongside the copy —
and calling `get` again on what the first call left behind returns an equal
value.  The final conjunct states the same for `Erased::get`, to which
`Trident::get` delegates. -/
theorem copy_out_frame {α : Type} (W : Nat) (T : RType α) (t : α) (m : Mem)
    (h : m.nextAddr < 256 ^ W) :
    (Trident.get W T (Trident.new W T t m).1 (Trident.new W T t m).2).1 = t ∧
    (Trident.get W T (Trident.new W T t m).1 (Trident.new W T t m).2).2.1
      = (Trident.new W T t m).1 ∧
    (Trident.get W T (Trident.new W T t m).1 (Trident.new W T t m).2).2.2
      = (Trident.new W T t m).2 ∧
    (Trident.get W T
        (Trident.get W T (Trident.new W T t m).1
          (Trident.new W T t m).2).2.1
        (Trident.get W T (Trident.new W T t m).1
          (Trident.new W T t m).2).2.2).1
      = (Trident.get W T (Trident.new W T t m).1
          (Trident.new W T t m).2).1 ∧
    Erased.get W T (Trident.new W T t m).1.erased (Trident.new W T t m).2
      = t := by
  have hread : Trident.as_ref W T (Trident.new W T t m).1
      (Trident.new W T t m).2 = t := by
    show Erased.as_ref W T (Erased.new W T t m).1 (Erased.new W T t m).2 = t
    exact Erased.as_ref_new W T t m h
  exact ⟨hread, rfl, rfl, rfl, hread⟩

/-- witness for C9 at a concrete inline-mode input. -/
theorem copy_out_frame_witness :
    (Trident.get 8 (byteType 4) (Trident.new 8 (byteType 4) smallVal Mem.init).1
        (Trident.new 8 (byteType 4) smallVal Mem.init).2).1 = smallVal :=
  (copy_out_frame 8 (byteType 4) smallVal Mem.init (by norm_num [Mem.init])).1

/-- C10: the buffer produced by `Erased::new` is canonical: in the inline
case it has the full `SIZE_LIMIT` length, every byte at an index past the
payload's `size_of` is 0 (the words were zero-initialized before the copy),
and the buffer is a deterministic function of the payload's bytes; in the
heap case word 0 holds the fresh allocation's address while words 1 and 2
are 0. -/
theorem new_buffer_canonical {α : Type} (W : Nat) (T : RType α)
    (t t1 t2 : α) (m m1 m2 : Mem) (h : m.nextAddr < 256 ^ W) :
    (should_inline W T.size = true →
       (∀ i, T.size ≤ i → (Erased.new W T t m).1.buf.getD i 0 = 0) ∧
       (Erased.new W T t m).1.buf.length = SIZE_LIMIT W ∧
       (T.enc t1 = T.enc t2 →
          (Erased.new W T t1 m1).1 = (Erased.new W T t2 m2).1)) ∧
    (should_inline W T.size = false →
       Erased.word W (Erased.new W T t m).1 0 = m.nextAddr ∧
       Erased.word W (Erased.new W T t m).1 1 = 0 ∧
       Erased.word W (Erased.new W T t m).1 2 = 0) := by
  rcases Bool.eq_false_or_eq_true (should_inline W T.size) with hi | hi
  · have hsz : T.size ≤ SIZE_LIMIT W := by
      simpa [should_inline] using hi
    refine ⟨fun _ => ⟨?_, ?_, ?_⟩, by simp [hi]⟩
    · intro i hle
      rw [Erased.new_inline W T t m hi]
      exact getD_append_replicate_zero _ _ _ (by rw [T.enc_length]; exact hle)
    · rw [Erased.new_inline W T t m hi]
      simp only [List.length_append, List.length_replicate, T.enc_length]
      omega
    · intro henc
      rw [Erased.new_inline W T t1 m1 hi, Erased.new_inline W T t2 m2 hi, henc]
  · refine ⟨by simp [hi], fun _ => ?_⟩
    rw [Erased.new_heap W T t m hi]
    exact ⟨word_heapBuf_zero W m.nextAddr h,
      word_heapBuf_rest W m.nextAddr 1 (by norm_num),
      word_heapBuf_rest W m.nextAddr 2 (by norm_num)⟩

/-- witness for C10 at a concrete inline-mode input: byte 10 of the buffer
for a 4-byte payload is 0. -/
theorem new_buffer_canonical_witness :
    (Erased.new 8 (byteType 4) smallVal Mem.init).1.buf.getD 10 0 = 0 :=
  ((new_buffer_canonical 8 (byteType 4) smallVal smallVal smallVal Mem.init
      Mem.init Mem.init (by norm_num [Mem.init])).1 (by decide)).1 10
    (by norm_num [byteType])

end Rust
